import Mathlib

/-!
Shallow embedding of the data-shaping pipeline of `src/App.js`
(spreadsheet-to-document converter): cell values, grids, transposition,
column splitting, document rendering, delivery traces, archive entry
naming, and the batch-upload working set.
-/

set_option autoImplicit false

namespace ClickTools

/-- A spreadsheet cell value as seen by the JavaScript code after sheet
decoding: `undef` models a missing entry (`undefined`, from a ragged row
or a hole), `str` a string cell, `num` a numeric cell (modelled over
`Int`). -/
inductive Cell where
  | undef : Cell
  | str : String → Cell
  | num : Int → Cell
deriving DecidableEq

instance : Inhabited Cell := ⟨Cell.undef⟩

/-- JavaScript truthiness of a cell value: `undefined`, the empty string
and the number 0 are falsy, everything else is truthy. This is the test
performed by the `||` fallback and by `suffix ?` in the source. -/
def Cell.truthy : Cell → Bool
  | Cell.undef => false
  | Cell.str s => decide (s ≠ "")
  | Cell.num n => decide (n ≠ 0)

/-- String conversion of a cell as performed at every use site of the
source (`String(cell)` under a defined-ness guard, template literals):
a missing cell renders as the empty string. -/
def Cell.render : Cell → String
  | Cell.undef => ""
  | Cell.str s => s
  | Cell.num n => toString n

/-- A grid row; a grid is a list of rows (possibly ragged). -/
abbrev Row := List Cell

abbrev Grid := List Row

/-- JavaScript indexing `row[c]`: out-of-range access yields `undefined`. -/
def cellAt (row : Row) (c : Nat) : Cell := row.getD c Cell.undef

/-- The idiom `x !== undefined ? x : ''` of the source: replace a missing
cell by the empty string. -/
def orEmpty : Cell → Cell
  | Cell.undef => Cell.str ""
  | c => c

/-- `Math.max(...data.map(row => row.length))` of the source, with value 0
on the empty grid (the source only evaluates it on non-empty grids). -/
def maxCols (data : Grid) : Nat := (data.map List.length).foldr max 0

/-- Embeds `transposeData` of `src/App.js` lines 111 to 129: for each
column index below `maxCols`, collect that column across all rows,
substituting the empty string for missing cells. -/
def transposeData (data : Grid) : Grid :=
  if data.length = 0 then data
  else (List.range (maxCols data)).map fun col =>
    data.map fun row => orEmpty (cellAt row col)

/-- Embeds `splitIntoColumnPairs` of `src/App.js` lines 137 to 155: one
pair per column index `col` in `[1, maxCols)`, zipping column 0 with
column `col`; grids with at most one column are returned unchanged as a
singleton. Pair index `i` of the result corresponds to `col = i + 1`. -/
def splitIntoColumnPairs (data : Grid) : List Grid :=
  if data.length = 0 then [data]
  else if maxCols data ≤ 1 then [data]
  else (List.range (maxCols data - 1)).map fun i =>
    data.map fun row => [orEmpty (cellAt row 0), orEmpty (cellAt row (i + 1))]

/-- One entry of the working set (`files` state): `name` is the original
file name with its extension stripped, `data` the decoded grid,
`originalName` the name as uploaded. -/
structure FileData where
  name : String
  data : Grid
  originalName : String
deriving DecidableEq

instance : Inhabited FileData := ⟨⟨"", [], ""⟩⟩

/-- Embeds the group-name resolution shared by `downloadWordFile`,
`downloadAllWordFiles` and `downloadZipFile`:
`columnPairs[i][0]?.[1] || column{i+2}` — the second cell of the first
row of pair `i` when truthy, else the positional placeholder. The result
is the string this value becomes at its use sites (template literals). -/
def resolveFamilyName (pair : Grid) (i : Nat) : String :=
  let c := cellAt (pair.getD 0 []) 1
  if c.truthy then c.render else "column" ++ toString (i + 2)

/-- The observable content of the Word document title paragraph built by
`createWordDocument`: its text, boldness and half-point size. -/
structure TitlePara where
  text : String
  bold : Bool
  size : Nat
deriving DecidableEq

/-- Abstract document artifact produced by `createWordDocument`: a title
paragraph followed by one table of stringified cells at 100% width. -/
structure DocModel where
  title : TitlePara
  table : List (List String)
  widthPct : Nat
deriving DecidableEq

/-- Embeds `createWordDocument` of `src/App.js` lines 164 to 223:
optionally transpose, then emit a bold 16pt title paragraph with text
`Packing Sheet` plus an optional space-prefixed suffix, followed by a
table whose cells are the rendered grid cells. -/
def createWordDocument (fileData : FileData) (tr : Bool) (suffix : String) : DocModel :=
  let dataToExport := if tr then transposeData fileData.data else fileData.data
  ⟨⟨"Packing Sheet" ++ (if suffix ≠ "" then " " ++ suffix else ""), true, 32⟩,
   dataToExport.map (fun row => row.map Cell.render),
   100⟩

/-- Modelled from the spec: the TableNormalizer component (spec section
4.1) has no separate counterpart in `src/App.js` (the source normalizes
on the fly inside `transposeData`); it pads every row with empty strings
to the maximum observed row length and turns absent cells into empty
strings, leaving the empty grid unchanged. -/
def normalize (data : Grid) : Grid :=
  data.map fun row => (List.range (maxCols data)).map fun c => orEmpty (cellAt row c)

/-- An uploaded file as seen by `handleFilesUpload`: its name plus the
outcome of the external spreadsheet decode (`XLSX.read` and
`sheet_to_json`), abstracted as an `Except` carrying an error message or
the decoded grid. -/
structure UploadFile where
  name : String
  decoded : Except String Grid

/-- ASCII lower-casing of one character, the case folding relevant to the
`/i` flag on the extension regex of the source (extensions are ASCII). -/
def lowerChar (c : Char) : Char :=
  if 64 < c.toNat ∧ c.toNat < 91 then Char.ofNat (c.toNat + 32) else c

/-- Whether `suf` is a suffix of `l`, by direct comparison of the final
segment. -/
def endsWithChars (l suf : List Char) : Bool :=
  decide (l.drop (l.length - suf.length) = suf)

/-- Embeds the extension filter `file.name.match(/\.(xlsx|xls)$/i)` of
`handleFilesUpload`: the name ends in `.xlsx` or `.xls`, case
insensitively. -/
def isExcelName (s : String) : Bool :=
  let l := s.data.map lowerChar
  endsWithChars l ".xlsx".data || endsWithChars l ".xls".data

/-- Embeds `file.name.replace(/\.[^/.]+$/, '')`: drop a final dot
followed by one or more characters none of which is a dot or a slash;
otherwise return the name unchanged. The reversed character list is
searched for the last dot. -/
def stripExt (s : String) : String :=
  let r := s.data.reverse
  match r.findIdx? (fun c => c = '.') with
  | none => s
  | some i =>
    if i ≠ 0 ∧ ¬ (r.take i).contains '/'
    then String.mk ((r.drop (i + 1)).reverse)
    else s

/-- The `FileData` record pushed by `handleFilesUpload` for a file that
passes the extension filter and decodes successfully; `none` when the
file is skipped (wrong extension) or its decode throws (caught and
logged, file excluded). -/
def okTable (f : UploadFile) : Option FileData :=
  if isExcelName f.name then
    match f.decoded with
    | Except.ok g => some ⟨stripExt f.name, g, f.name⟩
    | Except.error _ => none
  else none

/-- The list of new working-set entries accumulated by the upload loop
of `src/App.js` lines 29 to 54, in upload order. -/
def newFilesOf : List UploadFile → List FileData
  | [] => []
  | f :: rest =>
    match okTable f with
    | some fd => fd :: newFilesOf rest
    | none => newFilesOf rest

/-- Embeds `handleFilesUpload` of `src/App.js` lines 23 to 61 at the
level of the working set: the new state appends the successfully decoded
tables to the previous state. The embedding is a total function: every
per-file decode failure is caught inside the loop, so no exception
escapes. -/
def handleFilesUpload (fileList : List UploadFile) (prev : List FileData) : List FileData :=
  prev ++ newFilesOf fileList

/-- The names of the files whose bytes `handleFilesUpload` hands to the
spreadsheet decoder: exactly the files passing the extension filter
(decoding happens inside the guarded branch, before any failure can
skip it). -/
def decodeAttempts (fileList : List UploadFile) : List String :=
  (fileList.filter fun f => isExcelName f.name).map fun f => f.name

/-- Observable delivery event of an export invocation: handing a named
artifact to the download sink (`saveAs`), or the fixed 300ms
inter-artifact delay (`setTimeout`). -/
inductive Ev where
  | save : String → Ev
  | delay : Ev
deriving DecidableEq

/-- Embeds the delivery behaviour of `downloadWordFile` of `src/App.js`
lines 229 to 269 as an event trace: nothing when the working set is
empty or the selection is out of range; with splitting, one save per
column pair with a delay guarded by `i < columnPairs.length - 1`;
without splitting, a single save. -/
def downloadWordFileTrace (files : List FileData) (sel : Nat) (tr sc : Bool) : List Ev :=
  if files.length = 0 then []
  else if sel < files.length then
    let currentFile := files.getD sel default
    let dataToExport := if tr then transposeData currentFile.data else currentFile.data
    if sc then
      let columnPairs := splitIntoColumnPairs dataToExport
      (List.range columnPairs.length).flatMap fun i =>
        Ev.save (currentFile.name ++ "_" ++ resolveFamilyName (columnPairs.getD i []) i ++ ".docx")
          :: (if i < columnPairs.length - 1 then [Ev.delay] else [])
    else
      [Ev.save ((if currentFile.name ≠ "" then currentFile.name else "converted") ++ ".docx")]
  else []

/-- Delivery events contributed by one file of `downloadAllWordFiles`
(`src/App.js` lines 286 to 314), at position `i` of `nFiles`: with
splitting, a save then an unconditional delay per column pair; without
splitting, a save then a delay guarded by `i < files.length - 1`. -/
def allTraceForFile (tr sc : Bool) (nFiles i : Nat) (file : FileData) : List Ev :=
  let dataToExport := if tr then transposeData file.data else file.data
  if sc then
    let columnPairs := splitIntoColumnPairs dataToExport
    (List.range columnPairs.length).flatMap fun j =>
      [Ev.save (file.name ++ "_" ++ resolveFamilyName (columnPairs.getD j []) j ++ ".docx"), Ev.delay]
  else
    Ev.save ((if file.name ≠ "" then file.name else "converted_" ++ toString (i + 1)) ++ ".docx")
      :: (if i < nFiles - 1 then [Ev.delay] else [])

/-- The loop of `downloadAllWordFiles` over the working set, carrying the
running index. -/
def downloadAllAux (tr sc : Bool) (nFiles : Nat) : Nat → List FileData → List Ev
  | _, [] => []
  | i, file :: rest => allTraceForFile tr sc nFiles i file ++ downloadAllAux tr sc nFiles (i + 1) rest

/-- Embeds the delivery behaviour of `downloadAllWordFiles` of
`src/App.js` lines 276 to 321 as an event trace. -/
def downloadAllTrace (tr sc : Bool) (files : List FileData) : List Ev :=
  downloadAllAux tr sc files.length 0 files

/-- Archive entry paths contributed by one file of `downloadZipFile`
(`src/App.js` lines 343 to 363), at position `i`: every entry goes under
the fixed `converted_files` folder created at line 338. -/
def zipEntriesForFile (tr sc : Bool) (i : Nat) (file : FileData) : List String :=
  let dataToExport := if tr then transposeData file.data else file.data
  if sc then
    let columnPairs := splitIntoColumnPairs dataToExport
    (List.range columnPairs.length).map fun j =>
      "converted_files/" ++
        (file.name ++ "_" ++ resolveFamilyName (columnPairs.getD j []) j ++ ".docx")
  else
    ["converted_files/" ++
      ((if file.name ≠ "" then file.name else "converted_" ++ toString (i + 1)) ++ ".docx")]

/-- The loop of `downloadZipFile` over the working set, carrying the
running index. -/
def zipEntriesAux (tr sc : Bool) : Nat → List FileData → List String
  | _, [] => []
  | i, file :: rest => zipEntriesForFile tr sc i file ++ zipEntriesAux tr sc (i + 1) rest

/-- Embeds `downloadZipFile` of `src/App.js` lines 328 to 374 at the
level of archive content: the sequence of entry paths handed to the
archive builder, in insertion order. -/
def downloadZipEntryNames (tr sc : Bool) (files : List FileData) : List String :=
  zipEntriesAux tr sc 0 files

/-! ### Helper lemmas -/

theorem maxCols_nil : maxCols [] = 0 := rfl

theorem maxCols_cons (r : Row) (l : Grid) : maxCols (r :: l) = max r.length (maxCols l) := rfl

theorem maxCols_pos_ne_nil {data : Grid} (h : 0 < maxCols data) : data ≠ [] := by
  intro hd
  rw [hd, maxCols_nil] at h
  exact Nat.lt_irrefl 0 h

theorem orEmpty_orEmpty (c : Cell) : orEmpty (orEmpty c) = orEmpty c := by
  cases c <;> rfl

theorem transposeData_of_ne_nil (data : Grid) (h : data ≠ []) :
    transposeData data = (List.range (maxCols data)).map fun col =>
      data.map fun row => orEmpty (cellAt row col) := by
  have hlen : ¬ data.length = 0 := fun h0 => h (List.length_eq_zero.mp h0)
  simp [transposeData, hlen]

theorem split_of_many (data : Grid) (h : 1 < maxCols data) :
    splitIntoColumnPairs data = (List.range (maxCols data - 1)).map fun i =>
      data.map fun row => [orEmpty (cellAt row 0), orEmpty (cellAt row (i + 1))] := by
  have hne : data ≠ [] := maxCols_pos_ne_nil (Nat.lt_trans Nat.zero_lt_one h)
  have hlen : ¬ data.length = 0 := fun h0 => hne (List.length_eq_zero.mp h0)
  have hc : ¬ maxCols data ≤ 1 := Nat.not_le.mpr h
  simp [splitIntoColumnPairs, hlen, hc]

theorem transposeData_getD (data : Grid) (c : Nat) (hc : c < maxCols data) :
    (transposeData data).getD c [] = data.map fun row => orEmpty (cellAt row c) := by
  have hd : data ≠ [] := maxCols_pos_ne_nil (Nat.lt_of_le_of_lt (Nat.zero_le c) hc)
  rw [transposeData_of_ne_nil data hd]
  rw [List.getD_eq_getElem _ _ (by simpa using hc)]
  simp

/-! ### Claim theorems -/

/-- Claim C1, counterexample: for a source table whose displayName is
`report`, the rendered document title (with empty suffix) is the fixed
string `Packing Sheet`, not the displayName, so the title text base is
not the displayName as the claim states. -/
theorem C1_counterexample :
    (createWordDocument ⟨"report", [[Cell.str "x"]], "report.xlsx"⟩ false "").title.text
        = "Packing Sheet" ∧
    (createWordDocument ⟨"report", [[Cell.str "x"]], "report.xlsx"⟩ false "").title.text
        ≠ "report" := by
  exact ⟨rfl, by decide⟩

/-- Claim C1, amended: every rendered document begins with a bold title
paragraph whose text base is the fixed string `Packing Sheet`,
optionally followed by a space and the title suffix when the suffix is
non-empty. -/
theorem C1_title (fileData : FileData) (tr : Bool) (suffix : String) :
    (createWordDocument fileData tr suffix).title.bold = true ∧
    (createWordDocument fileData tr suffix).title.text =
      "Packing Sheet" ++ (if suffix = "" then "" else " " ++ suffix) := by
  refine ⟨rfl, ?_⟩
  by_cases h : suffix = ""
  · simp [createWordDocument, h]
  · simp [createWordDocument, h]

/-- Claim C4: on a grid whose maximum row length is N greater than 1,
`splitIntoColumnPairs` returns exactly N minus 1 pairs, ordered by
source column index starting at column 1, pair i zipping column 0 with
column i plus 1 across all rows, missing cells becoming the empty
string. -/
theorem C4_split_pairs (data : Grid) (h : 1 < maxCols data) :
    (splitIntoColumnPairs data).length = maxCols data - 1 ∧
    ∀ i, i < maxCols data - 1 →
      (splitIntoColumnPairs data).getD i [] =
        data.map fun row => [orEmpty (cellAt row 0), orEmpty (cellAt row (i + 1))] := by
  rw [split_of_many data h]
  refine ⟨by simp, fun i hi => ?_⟩
  rw [List.getD_eq_getElem _ _ (by simpa using hi)]
  simp

/-- Claim C4, witness at the grid of spec scenario A. -/
theorem C4_witness :
    (splitIntoColumnPairs [[Cell.str "Name", Cell.str "Alice", Cell.str "Bob"],
        [Cell.str "Age", Cell.str "30", Cell.str "25"]]).length = 2 ∧
    (splitIntoColumnPairs [[Cell.str "Name", Cell.str "Alice", Cell.str "Bob"],
        [Cell.str "Age", Cell.str "30", Cell.str "25"]]).getD 1 [] =
      [[Cell.str "Name", Cell.str "Bob"], [Cell.str "Age", Cell.str "25"]] := by
  have h := C4_split_pairs [[Cell.str "Name", Cell.str "Alice", Cell.str "Bob"],
    [Cell.str "Age", Cell.str "30", Cell.str "25"]] (by decide)
  exact ⟨h.1, by rw [h.2 1 (by decide)]; decide⟩

/-- Claim C5: on a non-empty grid whose maximum row length is at most 1,
`splitIntoColumnPairs` returns a single-element sequence containing the
original grid unchanged. -/
theorem C5_split_singleton (data : Grid) (h1 : data ≠ []) (h2 : maxCols data ≤ 1) :
    splitIntoColumnPairs data = [data] := by
  have hlen : ¬ data.length = 0 := fun h0 => h1 (List.length_eq_zero.mp h0)
  simp [splitIntoColumnPairs, hlen, h2]

/-- Claim C5, witness at a one-column grid. -/
theorem C5_witness :
    splitIntoColumnPairs [[Cell.str "a"], [Cell.str "b"]] = [[[Cell.str "a"], [Cell.str "b"]]] :=
  C5_split_singleton [[Cell.str "a"], [Cell.str "b"]] (by decide) (by decide)

/-- Claim C6: `transposeData` maps any grid (ragged included, without
failing) to a grid with `maxCols` rows and `rows` columns in which entry
(c, r) is the input entry (r, c), missing input cells becoming the empty
string; the empty grid maps to itself. -/
theorem C6_transpose (data : Grid) :
    (transposeData data).length = maxCols data ∧
    (∀ c, c < maxCols data → ((transposeData data).getD c []).length = data.length) ∧
    (∀ c r, c < maxCols data → r < data.length →
      cellAt ((transposeData data).getD c []) r = orEmpty (cellAt (data.getD r []) c)) ∧
    transposeData ([] : Grid) = [] := by
  by_cases hd : data = []
  · subst hd
    refine ⟨rfl, ?_, ?_, rfl⟩
    · intro c hc
      rw [maxCols_nil] at hc
      exact absurd hc (Nat.not_lt_zero c)
    · intro c r hc hr
      rw [maxCols_nil] at hc
      exact absurd hc (Nat.not_lt_zero c)
  · refine ⟨?_, fun c hc => ?_, fun c r hc hr => ?_, rfl⟩
    · rw [transposeData_of_ne_nil data hd]; simp
    · rw [transposeData_getD data c hc]; simp
    · rw [transposeData_getD data c hc]
      unfold cellAt
      rw [List.getD_eq_getElem _ _ (by simpa using hr), List.getD_eq_getElem _ _ hr]
      simp [cellAt]

/-- Claim C6, witness at the ragged grid of spec scenario B. -/
theorem C6_witness :
    cellAt ((transposeData [[Cell.str "A", Cell.str "B"], [Cell.str "1", Cell.str "2"],
        [Cell.str "3"]]).getD 1 []) 2 =
      orEmpty (cellAt (([[Cell.str "A", Cell.str "B"], [Cell.str "1", Cell.str "2"],
        [Cell.str "3"]] : Grid).getD 2 []) 1) :=
  (C6_transpose [[Cell.str "A", Cell.str "B"], [Cell.str "1", Cell.str "2"],
    [Cell.str "3"]]).2.2.1 1 2 (by decide) (by decide)

/-! ### Helper lemmas for normalization and the transpose involution -/

theorem grid_ext (g1 g2 : Grid) (hl : g1.length = g2.length)
    (h : ∀ r, r < g1.length → g1.getD r [] = g2.getD r []) : g1 = g2 := by
  apply List.ext_getElem hl
  intro i h1 h2
  have hi := h i h1
  rwa [List.getD_eq_getElem _ _ h1, List.getD_eq_getElem _ _ h2] at hi

theorem row_ext (r1 r2 : Row) (hl : r1.length = r2.length)
    (h : ∀ c, c < r1.length → cellAt r1 c = cellAt r2 c) : r1 = r2 := by
  apply List.ext_getElem hl
  intro i h1 h2
  have hi := h i h1
  unfold cellAt at hi
  rwa [List.getD_eq_getElem _ _ h1, List.getD_eq_getElem _ _ h2] at hi

theorem maxCols_of_uniform (data : Grid) (C : Nat) (hne : data ≠ [])
    (h : ∀ row ∈ data, row.length = C) : maxCols data = C := by
  induction data with
  | nil => exact absurd rfl hne
  | cons a l ih =>
    rw [maxCols_cons]
    rcases eq_or_ne l [] with hl | hl
    · subst hl
      rw [h a (by simp), maxCols_nil]
      simp
    · rw [ih hl fun row hrow => h row (List.mem_cons_of_mem a hrow),
        h a (List.mem_cons_self a l)]
      simp

theorem transpose_length (data : Grid) (h : data ≠ []) :
    (transposeData data).length = maxCols data := by
  rw [transposeData_of_ne_nil data h]
  simp

theorem transpose_row_mem (data : Grid) (h : data ≠ []) (col : Row)
    (hmem : col ∈ transposeData data) : col.length = data.length := by
  rw [transposeData_of_ne_nil data h] at hmem
  simp only [List.mem_map, List.mem_range] at hmem
  obtain ⟨c, hc, rfl⟩ := hmem
  simp

theorem transpose_row_length (data : Grid) (c : Nat) (hc : c < maxCols data) :
    ((transposeData data).getD c []).length = data.length := by
  rw [transposeData_getD data c hc]
  simp

theorem transpose_entry (data : Grid) (c r : Nat) (hc : c < maxCols data)
    (hr : r < data.length) :
    cellAt ((transposeData data).getD c []) r = orEmpty (cellAt (data.getD r []) c) := by
  rw [transposeData_getD data c hc]
  unfold cellAt
  rw [List.getD_eq_getElem _ _ (by simpa using hr), List.getD_eq_getElem _ _ hr]
  simp [cellAt]

theorem normalize_length (g : Grid) : (normalize g).length = g.length := by
  simp [normalize]

theorem normalize_rows (g : Grid) : ∀ row ∈ normalize g, row.length = maxCols g := by
  intro row h
  simp only [normalize, List.mem_map] at h
  obtain ⟨r, hr, rfl⟩ := h
  simp

theorem normalize_getD (g : Grid) (r : Nat) (hr : r < g.length) :
    (normalize g).getD r [] =
      (List.range (maxCols g)).map fun c => orEmpty (cellAt (g.getD r []) c) := by
  unfold normalize
  rw [List.getD_eq_getElem _ _ (by simpa using hr), List.getD_eq_getElem _ _ hr]
  simp

theorem normalize_getD_length (g : Grid) (r : Nat) (hr : r < g.length) :
    ((normalize g).getD r []).length = maxCols g := by
  rw [normalize_getD g r hr]
  simp

theorem normalize_entry (g : Grid) (r c : Nat) (hr : r < g.length) (hc : c < maxCols g) :
    cellAt ((normalize g).getD r []) c = orEmpty (cellAt (g.getD r []) c) := by
  rw [normalize_getD g r hr]
  unfold cellAt
  rw [List.getD_eq_getElem _ _ (by simpa using hc)]
  simp [cellAt]

/-- Claim C7, counterexample: the grid of two empty rows is rectangular
(all rows of equal length 0) and is its own normalization, yet
transposing it twice yields the empty grid, not the grid itself. -/
theorem C7_counterexample :
    (∀ row ∈ ([[], []] : Grid), row.length = maxCols [[], []]) ∧
    normalize [[], []] = ([[], []] : Grid) ∧
    transposeData (transposeData (normalize [[], []])) ≠ normalize [[], []] := by
  decide

/-- Claim C7, amended: for every rectangular grid that is empty or has at
least one column, applying `transposeData` twice to the normalized grid
yields the normalized grid. -/
theorem C7_involution (g : Grid) (hrect : ∀ row ∈ g, row.length = maxCols g)
    (hw : g = [] ∨ 1 ≤ maxCols g) :
    transposeData (transposeData (normalize g)) = normalize g := by
  rcases eq_or_ne g [] with hg | hg
  · subst hg
    rfl
  · have hC : 1 ≤ maxCols g := hw.resolve_left hg
    have hgl : 0 < g.length := List.length_pos.mpr hg
    have hNne : normalize g ≠ [] := by
      intro h
      have hlen := normalize_length g
      rw [h] at hlen
      simp at hlen
      omega
    have hmaxN : maxCols (normalize g) = maxCols g :=
      maxCols_of_uniform _ _ hNne (normalize_rows g)
    have hT1len : (transposeData (normalize g)).length = maxCols g := by
      rw [transpose_length _ hNne, hmaxN]
    have hT1ne : transposeData (normalize g) ≠ [] := by
      intro h
      rw [h] at hT1len
      simp at hT1len
      omega
    have hT1rows : ∀ col ∈ transposeData (normalize g), col.length = g.length := by
      intro col hcol
      rw [transpose_row_mem _ hNne col hcol, normalize_length]
    have hmaxT1 : maxCols (transposeData (normalize g)) = g.length :=
      maxCols_of_uniform _ _ hT1ne hT1rows
    apply grid_ext
    · rw [transpose_length _ hT1ne, hmaxT1, normalize_length]
    · intro r hr
      have hr2 : r < g.length := by
        rwa [transpose_length _ hT1ne, hmaxT1] at hr
      apply row_ext
      · rw [transpose_row_length _ r (by rwa [hmaxT1]), hT1len,
          normalize_getD_length g r hr2]
      · intro c hc
        have hcg : c < maxCols g := by
          rwa [transpose_row_length _ r (by rwa [hmaxT1]), hT1len] at hc
        rw [transpose_entry _ r c (by rwa [hmaxT1]) (by rwa [hT1len]),
          transpose_entry _ c r (by rwa [hmaxN]) (by rwa [normalize_length]),
          orEmpty_orEmpty,
          normalize_entry g r c hr2 hcg, orEmpty_orEmpty]

/-- Claim C7, witness at a concrete 2 by 2 rectangular grid. -/
theorem C7_witness :
    transposeData (transposeData (normalize
      [[Cell.str "A", Cell.str "B"], [Cell.str "1", Cell.str "2"]])) =
    normalize [[Cell.str "A", Cell.str "B"], [Cell.str "1", Cell.str "2"]] :=
  C7_involution [[Cell.str "A", Cell.str "B"], [Cell.str "1", Cell.str "2"]]
    (by decide) (by decide)

/-! ### Helper lemmas for string rendering of numbers -/

theorem toDigitsCore_length_le (b : Nat) :
    ∀ (f n : Nat) (l : List Char), l.length ≤ (Nat.toDigitsCore b f n l).length := by
  intro f
  induction f with
  | zero =>
    intro n l
    exact Nat.le_refl _
  | succ f ih =>
    intro n l
    simp only [Nat.toDigitsCore]
    split
    · exact Nat.le_succ _
    · exact Nat.le_trans (Nat.le_succ _) (ih (n / b) ((n % b).digitChar :: l))

theorem toDigitsCore_length_pos (b f n : Nat) (l : List Char) :
    l.length < (Nat.toDigitsCore b (f + 1) n l).length := by
  simp only [Nat.toDigitsCore]
  split
  · exact Nat.lt_succ_self _
  · exact Nat.lt_of_lt_of_le (Nat.lt_succ_self _)
      (toDigitsCore_length_le b f (n / b) ((n % b).digitChar :: l))

theorem natRepr_ne_empty (n : Nat) : Nat.repr n ≠ "" := by
  intro h
  have hd : Nat.toDigitsCore 10 (n + 1) n [] = [] := congrArg String.data h
  have hlen := toDigitsCore_length_pos 10 n n []
  rw [hd] at hlen
  simp at hlen

theorem intToString_ne_empty (n : Int) : toString n ≠ "" := by
  cases n with
  | ofNat m => exact natRepr_ne_empty m
  | negSucc m =>
    intro h
    have h3 := congrArg String.data h
    rw [show toString (Int.negSucc m) = "-" ++ Nat.repr (m + 1) from rfl,
      String.data_append] at h3
    exact absurd h3 (by simp)

theorem render_truthy_ne_empty (c : Cell) (h : c.truthy = true) : c.render ≠ "" := by
  cases c with
  | undef => simp [Cell.truthy] at h
  | str s =>
    simp only [Cell.truthy, decide_eq_true_eq] at h
    simpa [Cell.render] using h
  | num n => exact intToString_ne_empty n

theorem columnPlaceholder_ne_empty (i : Nat) : ("column" ++ toString (i + 2)) ≠ "" := by
  intro h
  have h3 := congrArg String.data h
  rw [String.data_append] at h3
  rcases List.append_eq_nil.mp h3 with ⟨h4, -⟩
  exact absurd h4 (by decide)

/-- Claim C2, counterexample: on the grid with single row `[L, 0]` (a
numeric cell 0), the produced pair has first-row second cell `0`, whose
rendered value `0` is a non-empty string, yet the resolved group name is
the placeholder `column2`, not that value: the code falls back on every
falsy cell, not only on empty ones. -/
theorem C2_counterexample :
    (splitIntoColumnPairs [[Cell.str "L", Cell.num 0]]).getD 0 [] =
      [[Cell.str "L", Cell.num 0]] ∧
    (Cell.num 0).render = "0" ∧
    resolveFamilyName ((splitIntoColumnPairs [[Cell.str "L", Cell.num 0]]).getD 0 []) 0 =
      "column2" ∧
    resolveFamilyName ((splitIntoColumnPairs [[Cell.str "L", Cell.num 0]]).getD 0 []) 0 ≠
      (Cell.num 0).render := by
  decide

/-- Claim C2, amended: for the pair at index i (source column i plus 1),
the resolved group name is the rendered value of the pair's first-row
second cell whenever that cell is truthy (a non-empty string or a
non-zero number), and the placeholder `column` followed by i plus 2
when the cell is the empty string, the number zero or absent; the
resolved name is never the empty string. -/
theorem C2_resolution (pair : Grid) (i : Nat) :
    (∀ s, s ≠ "" → cellAt (pair.getD 0 []) 1 = Cell.str s →
      resolveFamilyName pair i = s) ∧
    (∀ n, n ≠ 0 → cellAt (pair.getD 0 []) 1 = Cell.num n →
      resolveFamilyName pair i = toString n) ∧
    ((cellAt (pair.getD 0 []) 1 = Cell.str "" ∨ cellAt (pair.getD 0 []) 1 = Cell.num 0 ∨
        cellAt (pair.getD 0 []) 1 = Cell.undef) →
      resolveFamilyName pair i = "column" ++ toString (i + 2)) ∧
    resolveFamilyName pair i ≠ "" := by
  refine ⟨?_, ?_, ?_, ?_⟩
  · intro s hs hcell
    simp only [resolveFamilyName]
    rw [hcell]
    simp [Cell.truthy, Cell.render, hs]
  · intro n hn hcell
    simp only [resolveFamilyName]
    rw [hcell]
    simp [Cell.truthy, Cell.render, hn]
  · intro hcell
    rcases hcell with h | h | h
    · simp only [resolveFamilyName]
      rw [h]
      simp [Cell.truthy]
    · simp only [resolveFamilyName]
      rw [h]
      simp [Cell.truthy]
    · simp only [resolveFamilyName]
      rw [h]
      simp [Cell.truthy]
  · by_cases h : (cellAt (pair.getD 0 []) 1).truthy
    · simp only [resolveFamilyName]
      rw [if_pos h]
      exact render_truthy_ne_empty _ h
    · simp only [resolveFamilyName]
      rw [if_neg h]
      exact columnPlaceholder_ne_empty i

/-- Claim C2, witness: a truthy string cell resolves to itself, an empty
second cell resolves to the positional placeholder. -/
theorem C2_witness :
    resolveFamilyName [[Cell.str "L", Cell.str "Alice"]] 0 = "Alice" ∧
    resolveFamilyName [[Cell.str "L", Cell.str ""]] 1 = "column" ++ toString (1 + 2) :=
  ⟨(C2_resolution [[Cell.str "L", Cell.str "Alice"]] 0).1 "Alice" (by decide) (by decide),
   (C2_resolution [[Cell.str "L", Cell.str ""]] 1).2.2.1 (Or.inl (by decide))⟩

/-! ### Delivery, archive and upload claims -/

/-- Claim C3, evaluation at the failing input: with one file whose grid
splits into a single pair, the current-file export trace ends with its
save event, but the all-files export trace with splitting enabled emits
a delay event after the last (and only) artifact, contradicting the rule
that the delay occurs only between artifacts. -/
theorem C3_trailing_delay :
    downloadWordFileTrace [⟨"a", [[Cell.str "L", Cell.str "x"]], "a.xlsx"⟩] 0 false true =
      [Ev.save "a_x.docx"] ∧
    downloadAllTrace false true [⟨"a", [[Cell.str "L", Cell.str "x"]], "a.xlsx"⟩] =
      [Ev.save "a_x.docx", Ev.delay] ∧
    (downloadAllTrace false true [⟨"a", [[Cell.str "L", Cell.str "x"]], "a.xlsx"⟩]).getLast? =
      some Ev.delay := by
  decide

theorem zipEntriesForFile_length (tr sc : Bool) (i : Nat) (file : FileData) :
    (zipEntriesForFile tr sc i file).length =
      if sc then
        (splitIntoColumnPairs (if tr then transposeData file.data else file.data)).length
      else 1 := by
  cases sc <;> simp [zipEntriesForFile]

theorem zipEntriesAux_length (tr sc : Bool) :
    ∀ (files : List FileData) (i : Nat),
      (zipEntriesAux tr sc i files).length =
        (files.map fun f =>
          if sc then
            (splitIntoColumnPairs (if tr then transposeData f.data else f.data)).length
          else 1).sum := by
  intro files
  induction files with
  | nil => intro i; rfl
  | cons f rest ih =>
    intro i
    simp [zipEntriesAux, zipEntriesForFile_length, ih (i + 1)]

theorem zipEntriesForFile_subfolder (tr sc : Bool) (i : Nat) (file : FileData) :
    ∀ n ∈ zipEntriesForFile tr sc i file, ∃ rest, n = "converted_files/" ++ rest := by
  intro n hn
  cases sc
  · simp only [zipEntriesForFile, Bool.false_eq_true, if_false, List.mem_singleton] at hn
    exact ⟨_, hn⟩
  · simp only [zipEntriesForFile, if_true, List.mem_map, List.mem_range] at hn
    obtain ⟨j, hj, rfl⟩ := hn
    exact ⟨_, rfl⟩

theorem zipEntriesAux_subfolder (tr sc : Bool) :
    ∀ (files : List FileData) (i : Nat) (n : String),
      n ∈ zipEntriesAux tr sc i files → ∃ rest, n = "converted_files/" ++ rest := by
  intro files
  induction files with
  | nil =>
    intro i n hn
    simp [zipEntriesAux] at hn
  | cons f rest ih =>
    intro i n hn
    simp only [zipEntriesAux, List.mem_append] at hn
    rcases hn with hn | hn
    · exact zipEntriesForFile_subfolder tr sc i f n hn
    · exact ih (i + 1) n hn

/-- Claim C8, counterexample: two source tables with the same display
name `a` (non-split mode) produce two archive entries with the identical
path `converted_files/a.docx`, so the entry filenames are not unique. -/
theorem C8_counterexample :
    downloadZipEntryNames false false
        [⟨"a", [[Cell.str "x"]], "a.xlsx"⟩, ⟨"a", [[Cell.str "y"]], "a.xlsx"⟩] =
      ["converted_files/a.docx", "converted_files/a.docx"] ∧
    ¬ (downloadZipEntryNames false false
        [⟨"a", [[Cell.str "x"]], "a.xlsx"⟩, ⟨"a", [[Cell.str "y"]], "a.xlsx"⟩]).Nodup := by
  decide

/-- Claim C8, amended: archive-mode export hands the archive builder
exactly one entry per source table when splitting is disabled (the sum
of split counts when enabled), every entry under the fixed
`converted_files` subfolder, and the entry name sequence is a function
of the inputs (deterministic); the entry names are not guaranteed
pairwise distinct, since tables sharing a display name (or split groups
sharing a resolved group name) repeat a path. -/
theorem C8_entries (tr sc : Bool) (files : List FileData) :
    (downloadZipEntryNames tr sc files).length =
      (files.map fun f =>
        if sc then
          (splitIntoColumnPairs (if tr then transposeData f.data else f.data)).length
        else 1).sum ∧
    ∀ n ∈ downloadZipEntryNames tr sc files, ∃ rest, n = "converted_files/" ++ rest :=
  ⟨zipEntriesAux_length tr sc files 0,
   fun n hn => zipEntriesAux_subfolder tr sc files 0 n hn⟩

/-- Claim C8, witness: the single entry produced for one table lies
under the fixed subfolder. -/
theorem C8_witness :
    ∃ rest, "converted_files/a.docx" = "converted_files/" ++ rest :=
  (C8_entries false false [⟨"a", [[Cell.str "x"]], "a.xlsx"⟩]).2
    "converted_files/a.docx" (by decide)

theorem newFilesOf_append (a b : List UploadFile) :
    newFilesOf (a ++ b) = newFilesOf a ++ newFilesOf b := by
  induction a with
  | nil => rfl
  | cons f rest ih => cases hok : okTable f <;> simp [newFilesOf, hok, ih]

theorem okTable_none_of_decode_fail (f : UploadFile) (hbad : f.decoded.isOk = false) :
    okTable f = none := by
  by_cases hx : isExcelName f.name
  · cases hd : f.decoded with
    | error e => simp [okTable, hx, hd]
    | ok g =>
      rw [hd] at hbad
      simp [Except.isOk, Except.toBool] at hbad
  · simp [okTable, hx]

theorem newFilesOf_names (l : List UploadFile)
    (h : ∀ f ∈ l, isExcelName f.name = true ∧ f.decoded.isOk = true) :
    (newFilesOf l).map FileData.originalName = l.map UploadFile.name := by
  induction l with
  | nil => rfl
  | cons f rest ih =>
    obtain ⟨hx, hok⟩ := h f (by simp)
    obtain ⟨g, hg⟩ : ∃ g, f.decoded = Except.ok g := by
      cases hd : f.decoded with
      | error e =>
        rw [hd] at hok
        simp [Except.isOk, Except.toBool] at hok
      | ok g => exact ⟨g, rfl⟩
    simp [newFilesOf, okTable, hx, hg, ih fun f2 hf2 => h f2 (by simp [hf2])]

/-- Claim C9: a batch upload in which exactly one file fails to decode
(all files carrying a spreadsheet extension) appends to the working set
exactly the successfully decoded tables, in order and with their
original names; the failing file is excluded and the upload is a total
function (every per-file decode failure is caught inside the loop, so no
exception escapes). -/
theorem C9_upload (pre post : List UploadFile) (bad : UploadFile) (prev : List FileData)
    (hall : ∀ f ∈ pre ++ bad :: post, isExcelName f.name = true)
    (hok : ∀ f ∈ pre ++ post, f.decoded.isOk = true)
    (hbad : bad.decoded.isOk = false) :
    handleFilesUpload (pre ++ bad :: post) prev = prev ++ newFilesOf (pre ++ post) ∧
    (newFilesOf (pre ++ post)).map FileData.originalName = (pre ++ post).map UploadFile.name ∧
    (handleFilesUpload (pre ++ bad :: post) prev).length =
      prev.length + (pre.length + post.length) := by
  have hbadnone : okTable bad = none := okTable_none_of_decode_fail bad hbad
  have hsplit : newFilesOf (pre ++ bad :: post) = newFilesOf pre ++ newFilesOf post := by
    rw [newFilesOf_append]
    simp [newFilesOf, hbadnone]
  have hnames : (newFilesOf (pre ++ post)).map FileData.originalName =
      (pre ++ post).map UploadFile.name := by
    apply newFilesOf_names
    intro f hf
    refine ⟨hall f ?_, hok f hf⟩
    rcases List.mem_append.mp hf with h | h
    · exact List.mem_append.mpr (Or.inl h)
    · exact List.mem_append.mpr (Or.inr (List.mem_cons_of_mem bad h))
  refine ⟨?_, hnames, ?_⟩
  · unfold handleFilesUpload
    rw [hsplit, newFilesOf_append]
  · unfold handleFilesUpload
    rw [hsplit, ← newFilesOf_append]
    have hlen := congrArg List.length hnames
    simp only [List.length_map] at hlen
    simp [hlen]

/-- Claim C9, witness: three uploaded spreadsheet files of which the
middle one fails to decode leave a working set of size 2. -/
theorem C9_witness :
    (handleFilesUpload
        [⟨"a.xlsx", Except.ok [[Cell.str "x"]]⟩, ⟨"b.xlsx", Except.error "boom"⟩,
         ⟨"c.xls", Except.ok [[Cell.str "z"]]⟩] []).length = 0 + (1 + 1) :=
  (C9_upload [⟨"a.xlsx", Except.ok [[Cell.str "x"]]⟩] [⟨"c.xls", Except.ok [[Cell.str "z"]]⟩]
    ⟨"b.xlsx", Except.error "boom"⟩ [] (by decide) (by decide) (by decide)).2.2

/-- Claim C10: a file whose name does not end in `.xlsx` or `.xls`
(case-insensitive) is silently skipped by the upload: the resulting
working set is the same as if the file had not been uploaded, the file
is never handed to the decoder, and the upload function is total (no
error is raised or surfaced). -/
theorem C10_skip (pre post : List UploadFile) (f : UploadFile) (prev : List FileData)
    (hf : isExcelName f.name = false) :
    handleFilesUpload (pre ++ f :: post) prev = handleFilesUpload (pre ++ post) prev ∧
    decodeAttempts (pre ++ f :: post) = decodeAttempts (pre ++ post) := by
  have hnone : okTable f = none := by simp [okTable, hf]
  constructor
  · unfold handleFilesUpload
    rw [newFilesOf_append, newFilesOf_append]
    simp [newFilesOf, hnone]
  · unfold decodeAttempts
    rw [List.filter_append, List.filter_append]
    simp [hf]

/-- Claim C10, witness: uploading a text file alongside a spreadsheet
leaves exactly the working set of the spreadsheet alone. -/
theorem C10_witness :
    handleFilesUpload
        [⟨"a.xlsx", Except.ok [[Cell.str "x"]]⟩, ⟨"notes.txt", Except.ok [[Cell.str "y"]]⟩] [] =
      handleFilesUpload [⟨"a.xlsx", Except.ok [[Cell.str "x"]]⟩] [] :=
  (C10_skip [⟨"a.xlsx", Except.ok [[Cell.str "x"]]⟩] [] ⟨"notes.txt", Except.ok [[Cell.str "y"]]⟩
    [] (by decide)).1

end ClickTools
